import Mathlib

/-!
Shallow embedding of the jex repository core (src/jq.rs and the interactive
loop of src/main.rs), with the generic JSON value model and the native value
model it converses with.

Conventions used throughout:
- A Rust panic (an `expect` or `panic!` firing) is modelled as `none` in an
  `Option` result, or as `Except.error msg` where the panic message matters.
- External crates (serde_json serialization and stream deserialization, the
  jq_rs compiled program, the native jq engine step functions) are taken as
  abstract function parameters: the repository code under verification is the
  composition logic written around them.
- Repository modules that are declared but whose source is absent (jv.rs, the
  app/view_tree layer) are modelled from the spec; each such definition says
  so in its doc comment.
-/

set_option autoImplicit false

namespace Jex

/-- The generic JSON value tree (serde_json::Value): `Null`, `Bool`, `Number`,
`String`, `Array` of ordered values, `Object` of ordered key-value pairs.
Numbers are modelled as rationals. -/
inductive Value where
  | null
  | bool (b : Bool)
  | number (q : ℚ)
  | string (s : String)
  | array (vs : List Value)
  | object (kvs : List (String × Value))

/-- Modelled from the spec: the kind tags of the native jq value handle
(jv.rs is declared in src/jq.rs but absent from src/). The native engine uses
`Invalid` as its end-of-results sentinel. -/
inductive JVKind where
  | invalid
  | jnull
  | jfalse
  | jtrue
  | number
  | string
  | array
  | object
  deriving DecidableEq

/-- Modelled from the spec: the native jq value tree owned by the engine
(jv.rs absent from src/). It mirrors the generic `Value` shape except that
booleans are split into two kinds and an `invalid` sentinel value exists. -/
inductive JV where
  | invalid
  | jnull
  | jfalse
  | jtrue
  | number (q : ℚ)
  | string (s : String)
  | array (js : List JV)
  | object (kvs : List (String × JV))

/-- Modelled from the spec: `JV::get_kind`, the kind tag of a native value. -/
def JV.get_kind : JV → JVKind
  | .invalid => .invalid
  | .jnull => .jnull
  | .jfalse => .jfalse
  | .jtrue => .jtrue
  | .number _ => .number
  | .string _ => .string
  | .array _ => .array
  | .object _ => .object

mutual

/-- Modelled from the spec: `JV::from_serde` (jv.rs absent from src/), the
structural conversion from the generic value tree to a native value. -/
def JV.from_serde : Value → JV
  | .null => .jnull
  | .bool b => if b then .jtrue else .jfalse
  | .number q => .number q
  | .string s => .string s
  | .array vs => .array (JV.from_serdeList vs)
  | .object kvs => .object (JV.from_serdeObject kvs)

/-- Conversion of a list of generic values, element by element. -/
def JV.from_serdeList : List Value → List JV
  | [] => []
  | v :: rest => JV.from_serde v :: JV.from_serdeList rest

/-- Conversion of an ordered object body, pair by pair. -/
def JV.from_serdeObject : List (String × Value) → List (String × JV)
  | [] => []
  | (k, v) :: rest => (k, JV.from_serde v) :: JV.from_serdeObject rest

end

mutual

/-- Modelled from the spec: `JV::to_serde` (jv.rs absent from src/), the
structural conversion from a native value back to the generic tree; a
malformed native payload (the invalid sentinel anywhere in the tree) fails,
yielding `none` (a DecodeError). -/
def JV.to_serde : JV → Option Value
  | .invalid => none
  | .jnull => some .null
  | .jfalse => some (.bool false)
  | .jtrue => some (.bool true)
  | .number q => some (.number q)
  | .string s => some (.string s)
  | .array js => (JV.to_serdeList js).map Value.array
  | .object kvs => (JV.to_serdeObject kvs).map Value.object

/-- Conversion of a native array body; fails if any element fails. -/
def JV.to_serdeList : List JV → Option (List Value)
  | [] => some []
  | j :: rest =>
    match JV.to_serde j with
    | none => none
    | some v => (JV.to_serdeList rest).map (fun l => v :: l)

/-- Conversion of a native object body; fails if any value fails. -/
def JV.to_serdeObject : List (String × JV) → Option (List (String × Value))
  | [] => some []
  | (k, j) :: rest =>
    match JV.to_serde j with
    | none => none
    | some v => (JV.to_serdeObject rest).map (fun l => (k, v) :: l)

end

/-! ## The result iterator (JQResults, src/src/jq.rs lines 52-66)

The native engine behind `jq_next` is modelled by the list of native values
that successive `jq_next` calls hand back; an exhausted engine (empty list)
keeps signalling end-of-results, which the C library reports as a value of
the invalid kind. -/

/-- `JQResults::next` (src/src/jq.rs lines 58-65): pull the next value from
the engine; if its kind is the invalid sentinel, the iteration ends (`none`),
otherwise the value is yielded together with the rest of the engine stream. -/
def JQResults.next : List JV → Option (JV × List JV)
  | [] => none
  | r :: rest =>
    match r.get_kind with
    | .invalid => none
    | _ => some (r, rest)

/-- Draining the iterator: the full sequence of values yielded by repeated
`JQResults::next` calls (what `.collect()` on the iterator produces). -/
def JQResults.drain : List JV → List JV
  | [] => []
  | r :: rest =>
    match r.get_kind with
    | .invalid => []
    | _ => r :: JQResults.drain rest

/-- Modelled from the spec: the native engine executing the compiled identity
filter program `.` (jq_start on the input root followed by jq_next stepping;
the engine itself is external) hands back exactly the input value and then
the invalid end-of-results sentinel. -/
def identityEngineOutput (input : JV) : List JV := [input, JV.invalid]

/-- `JQ::execute` (src/src/jq.rs lines 46-49) specialised to the compiled
identity program: drive the stepping protocol (the result iterator) over the
engine output for the given root value. -/
def JQ.executeIdentity (input : JV) : List JV :=
  JQResults.drain (identityEngineOutput input)

/-! ## run_jq_query (src/src/jq.rs lines 8-18)

The jq_rs compiled program is modelled as a function from serialized JSON
text to either an error or the program output text; serde_json serialization
and stream deserialization are likewise abstract parameters. -/

/-- Collecting an iterator of options into an optional list, stopping at the
first `none` (the behaviour of the element-wise `expect` in `run_jq_query`,
with the panic modelled as `none`). -/
def collectOption {α : Type} : List (Option α) → Option (List α)
  | [] => some []
  | none :: _ => none
  | some a :: rest => (collectOption rest).map (fun l => a :: l)

/-- Collecting an iterator of results into a result of a list, stopping at
the first error (Rust `collect::<Result<Vec<_>, _>>`). -/
def collectExcept {ε α : Type} : List (Except ε α) → Except ε (List α)
  | [] => .ok []
  | .error e :: _ => .error e
  | .ok a :: rest => (collectExcept rest).map (fun l => a :: l)

/-- `run_jq_query` (src/src/jq.rs lines 8-18): serialize each input value,
run the compiled program on it (the per-item `expect("jq execution error")`
panic is modelled as an overall `none`), then parse every output text as a
stream of JSON values and collect (the `expect("json decoding error")` panic
is likewise modelled as `none`). -/
def run_jq_query (toStr : Value → String)
    (parseStream : String → List (Except String Value))
    (content : List Value) (prog : String → Except String String) :
    Option (List Value) :=
  match collectOption (content.map (fun j => (prog (toStr j)).toOption)) with
  | none => none
  | some rightStrings =>
    match collectExcept (rightStrings.flatMap parseStream) with
    | .error _ => none
    | .ok vs => some vs

/-- The values the program produces for one input value: run the program on
its serialized form and parse the output text, `none` when either the program
execution or the decoding of its output fails. -/
def perInputResults (toStr : Value → String)
    (parseStream : String → List (Except String Value))
    (prog : String → Except String String) (j : Value) : Option (List Value) :=
  match prog (toStr j) with
  | .error _ => none
  | .ok s =>
    match collectExcept (parseStream s) with
    | .error _ => none
    | .ok vs => some vs

/-! ## JQ::compile (src/src/jq.rs lines 36-45)

The native compiler `jq_compile` is modelled by an acceptance predicate on
program text. -/

/-- Whether the program text contains an embedded null byte, the condition
under which `CString::new` fails. -/
def hasNulByte (s : String) : Bool := s.toList.any (fun c => c = Char.ofNat 0)

/-- A compiled program handle (the `JQ` wrapper around a native jq_state),
modelled as carrying the program text it was compiled from. -/
structure JQ where
  prog : String
  deriving DecidableEq

/-- `JQ::compile` (src/src/jq.rs lines 36-45): `CString::new(s)` is followed
by `.expect("Nul byte in jq program")`, so text containing a null byte panics
(outer `none`); otherwise the native compiler either accepts the text
(`some (some handle)`) or rejects it, `jq_compile` returning 0, in which case
`compile` returns `None` (`some none`, a compile failure). -/
def JQ.compile (jqAccepts : String → Bool) (s : String) : Option (Option JQ) :=
  if hasNulByte s then none
  else if jqAccepts s then some (some ⟨s⟩) else some none

/-! ## The interactive loop (src/src/main.rs, fn run, lines 281-497) -/

/-- The key codes the loop distinguishes (crossterm::event::KeyCode). -/
inductive KeyCode where
  | esc
  | down
  | up
  | tab
  | pageDown
  | pageUp
  | home
  | endKey
  | char (c : Char)
  | fkey (n : Nat)
  deriving DecidableEq

/-- Modelled from the spec: the transient flash message state (app.rs absent
from src/): the message shown to the user and a scroll offset, an unsigned
machine integer (usize) manipulated only with saturating arithmetic. -/
structure FlashState where
  text : String
  scroll : Nat
  deriving DecidableEq

/-- The largest value of the scroll counter (usize::MAX on a 64-bit target). -/
def usizeMax : Nat := 2 ^ 64 - 1

/-- `usize::saturating_add(1)`: increment, saturating at the maximum. -/
def saturatingAdd1 (n : Nat) : Nat := min (n + 1) usizeMax

/-- `usize::saturating_sub(1)`: decrement, saturating at zero (on `Nat`,
truncated subtraction is exactly saturating subtraction). -/
def saturatingSub1 (n : Nat) : Nat := n - 1

/-- The application state as the key dispatch sees it: the optional flash and
the rest (navigation state: cursor, folds, focus, frames — held abstract,
since app.rs is absent from src/; the claims only need that it is untouched). -/
structure AppState (ν : Type) where
  flash : Option FlashState
  nav : ν

/-- The flash branch of the key dispatch (src/src/main.rs lines 301-316):
with a flash active, Esc dismisses it, Down scrolls it down with saturating
addition, Up scrolls it up with saturating subtraction, and every other key
is ignored; the loop then continues, so the rest of the key handling (all
navigation) is skipped. -/
def flashKeyStep {ν : Type} (app : AppState ν) (fl : FlashState)
    (k : KeyCode) : AppState ν :=
  match k with
  | .esc => ⟨none, app.nav⟩
  | .down => ⟨some ⟨fl.text, saturatingAdd1 fl.scroll⟩, app.nav⟩
  | .up => ⟨some ⟨fl.text, saturatingSub1 fl.scroll⟩, app.nav⟩
  | _ => app

/-- One key event of the interactive loop: if a flash is active the flash
branch handles the key and the loop continues (lines 301-316); otherwise the
normal key handling runs (lines 317-496), modelled abstractly since it calls
into the absent app layer. -/
def keyEventStep {ν : Type} (normalStep : AppState ν → KeyCode → AppState ν)
    (app : AppState ν) (k : KeyCode) : AppState ν :=
  match app.flash with
  | some fl => flashKeyStep app fl k
  | none => normalStep app k

/-- The mouse event payload (crossterm::event::MouseEvent), opaque to the
loop, which never inspects it. -/
structure MouseEvent where
  code : Nat
  deriving DecidableEq

/-- The events the loop reads (crossterm::event::Event). -/
inductive Event where
  | key (k : KeyCode)
  | mouse (m : MouseEvent)
  | resize (width height : Nat)

/-- What the event dispatch decides to do next. -/
inductive EventAction where
  | handleKey (k : KeyCode)
  | relayout (width height : Nat)

/-- The panic message of the mouse arm of the event dispatch (the apostrophe
is assembled from its character code). -/
def mousePanicMessage : String :=
  "Mouse events aren" ++ String.singleton (Char.ofNat 39) ++ "t enabled!"

/-- The event dispatch of the interactive loop (src/src/main.rs lines
284-299): a key event is handed to the key handling, a mouse event panics
(modelled as `Except.error` carrying the panic message), and a resize event
recomputes the layout and continues the loop. -/
def classifyEvent : Event → Except String EventAction
  | .key k => .ok (.handleKey k)
  | .mouse _ => .error mousePanicMessage
  | .resize w h => .ok (.relayout w h)

/-! ## The frame store (view_tree/app layer, absent from src/) -/

/-- Modelled from the spec: a frame of the view forest holding a display name
and its derived value set. -/
structure SessionFrame where
  name : String
  values : List Value

/-- Modelled from the spec: deriving a child frame from the frame at index
`parent` runs `run_jq_query` (src code) on the parent frame's value set and
appends a fresh frame holding the result; the parent frame and every other
frame are left as they are (query derivation always produces a fresh value
set). A failed lookup or a panicking query leaves the store unchanged. -/
def deriveFrame (toStr : Value → String)
    (parseStream : String → List (Except String Value))
    (frames : List SessionFrame) (parent : Nat)
    (prog : String → Except String String) (name : String) :
    List SessionFrame :=
  match frames[parent]? with
  | none => frames
  | some fr =>
    match run_jq_query toStr parseStream fr.values prog with
    | none => frames
    | some vs => frames ++ [⟨name, vs⟩]

/-! ## Concrete sample data used by witnesses and counterexamples -/

/-- The identity filter program text. -/
def dotProgram : String := "."

/-- A program text consisting of a single null byte. -/
def nulString : String := String.singleton (Char.ofNat 0)

/-- A sample execution error message, as the jq engine would report one. -/
def sampleJqError : String := "jq: error: demo"

/-- A sample flash message text. -/
def sampleFlashText : String := "Error saving json"

/-- A serializer stub for closed sample computations. -/
def sampleToStr : Value → String := fun _ => "null"

/-- A parser stub for closed sample computations: every text decodes to the
single JSON value null. -/
def sampleParse : String → List (Except String Value) :=
  fun _ => [Except.ok Value.null]

/-- A program stub that fails on every input, as the jq `error` builtin does. -/
def sampleFailingProg : String → Except String String :=
  fun _ => Except.error sampleJqError

/-- A program stub that echoes its input text, as the identity filter does. -/
def sampleEchoProg : String → Except String String :=
  fun s => Except.ok s

/-! ## Helper lemmas -/

mutual

theorem JV.to_from_serde : (v : Value) → JV.to_serde (JV.from_serde v) = some v
  | .null => rfl
  | .bool true => rfl
  | .bool false => rfl
  | .number _ => rfl
  | .string _ => rfl
  | .array vs => by
    rw [JV.from_serde, JV.to_serde, JV.to_from_serdeList vs]
    rfl
  | .object kvs => by
    rw [JV.from_serde, JV.to_serde, JV.to_from_serdeObject kvs]
    rfl

theorem JV.to_from_serdeList :
    (l : List Value) → JV.to_serdeList (JV.from_serdeList l) = some l
  | [] => rfl
  | v :: rest => by
    rw [JV.from_serdeList, JV.to_serdeList, JV.to_from_serde v,
      JV.to_from_serdeList rest]
    rfl

theorem JV.to_from_serdeObject :
    (l : List (String × Value)) →
      JV.to_serdeObject (JV.from_serdeObject l) = some l
  | [] => rfl
  | (k, v) :: rest => by
    rw [JV.from_serdeObject, JV.to_serdeObject, JV.to_from_serde v,
      JV.to_from_serdeObject rest]
    rfl

end

theorem JQResults.drain_eq_next (engine : List JV) :
    JQResults.drain engine =
      match JQResults.next engine with
      | none => []
      | some (r, rest) => r :: JQResults.drain rest := by
  match engine with
  | [] => rfl
  | r :: rest =>
    rw [JQResults.drain, JQResults.next]
    cases r <;> rfl

theorem JQResults.drain_cons_of_ne (j : JV) (rest : List JV)
    (h : j.get_kind ≠ .invalid) :
    JQResults.drain (j :: rest) = j :: JQResults.drain rest := by
  cases j
  case invalid => exact absurd rfl h
  all_goals rfl

theorem JQResults.drain_cons_of_invalid (j : JV) (rest : List JV)
    (h : j.get_kind = .invalid) :
    JQResults.drain (j :: rest) = [] := by
  cases j
  case invalid => rfl
  all_goals simp [JV.get_kind] at h

theorem JV.from_serde_get_kind_ne_invalid (v : Value) :
    (JV.from_serde v).get_kind ≠ .invalid := by
  cases v with
  | bool b => cases b <;> simp [JV.from_serde, JV.get_kind]
  | _ => simp [JV.from_serde, JV.get_kind]

theorem JQResults.drain_replicate_jnull (m : Nat) :
    JQResults.drain (List.replicate m JV.jnull) = List.replicate m JV.jnull := by
  induction m with
  | zero => rfl
  | succ n ih => rw [List.replicate_succ, JQResults.drain, ih]; rfl

theorem collectExcept_append {ε α : Type} (l1 l2 : List (Except ε α)) :
    collectExcept (l1 ++ l2) =
      match collectExcept l1 with
      | .error e => .error e
      | .ok a => (collectExcept l2).map (fun b => a ++ b) := by
  induction l1 with
  | nil =>
    cases h2 : collectExcept l2 <;> simp [collectExcept, h2, Except.map]
  | cons x rest ih =>
    cases x with
    | error e => rfl
    | ok a =>
      rw [List.cons_append, collectExcept, ih, collectExcept]
      cases h1 : collectExcept rest <;> cases h2 : collectExcept l2 <;>
        simp [Except.map]

theorem collectOption_append {α : Type} (l1 l2 : List (Option α)) :
    collectOption (l1 ++ l2) =
      match collectOption l1, collectOption l2 with
      | some a, some b => some (a ++ b)
      | _, _ => none := by
  induction l1 with
  | nil =>
    cases h2 : collectOption l2 <;> simp [collectOption, h2]
  | cons x rest ih =>
    cases x with
    | none => rfl
    | some a =>
      rw [List.cons_append, collectOption, ih, collectOption]
      cases h1 : collectOption rest <;> cases h2 : collectOption l2 <;> simp

theorem collectOption_map_eq_none_of_mem {α β : Type} (f : β → Option α)
    (l : List β) (x : β) (hx : x ∈ l) (hf : f x = none) :
    collectOption (l.map f) = none := by
  induction l with
  | nil => cases hx
  | cons y rest ih =>
    rcases List.mem_cons.mp hx with h | h
    · subst h
      rw [List.map_cons, hf]
      rfl
    · rw [List.map_cons]
      cases hy : f y with
      | none => rfl
      | some a => rw [collectOption, ih h]; rfl

theorem except_toOption_ok {ε α : Type} (a : α) :
    (Except.ok a : Except ε α).toOption = some a := rfl

theorem except_toOption_error {ε α : Type} (e : ε) :
    (Except.error e : Except ε α).toOption = none := rfl

theorem run_jq_query_eq_flatten (toStr : Value → String)
    (parseStream : String → List (Except String Value))
    (prog : String → Except String String) (content : List Value) :
    run_jq_query toStr parseStream content prog =
      (collectOption (content.map (perInputResults toStr parseStream prog))).map
        (fun ls => ls.flatten) := by
  induction content with
  | nil => rfl
  | cons j rest ih =>
    cases hp : prog (toStr j) with
    | error e =>
      have hper : perInputResults toStr parseStream prog j = none := by
        rw [perInputResults, hp]
      simp [run_jq_query, hp, hper, except_toOption_error, collectOption]
    | ok s =>
      simp only [run_jq_query, List.map_cons, hp, except_toOption_ok,
        collectOption]
      cases hS : collectOption (rest.map (fun j => (prog (toStr j)).toOption)) with
      | none =>
        have hrest : run_jq_query toStr parseStream rest prog = none := by
          rw [run_jq_query, hS]
        rw [ih] at hrest
        have hrestC : collectOption
            (rest.map (perInputResults toStr parseStream prog)) = none := by
          cases hC : collectOption
              (rest.map (perInputResults toStr parseStream prog)) with
          | none => rfl
          | some ls => rw [hC] at hrest; simp at hrest
        cases hper : perInputResults toStr parseStream prog j with
        | none => simp [collectOption]
        | some l => simp [collectOption, hrestC]
      | some ss =>
        have hrest : run_jq_query toStr parseStream rest prog =
            match collectExcept (ss.flatMap parseStream) with
            | .error _ => none
            | .ok vs => some vs := by
          rw [run_jq_query, hS]
        rw [ih] at hrest
        show (match collectExcept ((s :: ss).flatMap parseStream) with
          | Except.error _ => none
          | Except.ok vs => some vs) =
            Option.map (fun ls => ls.flatten)
              (collectOption (perInputResults toStr parseStream prog j ::
                List.map (perInputResults toStr parseStream prog) rest))
        rw [List.flatMap_cons, collectExcept_append]
        cases hps : collectExcept (parseStream s) with
        | error e =>
          have hper : perInputResults toStr parseStream prog j = none := by
            simp [perInputResults, hp, hps]
          simp [hper, collectOption]
        | ok l =>
          have hper : perInputResults toStr parseStream prog j = some l := by
            simp [perInputResults, hp, hps]
          cases hrs : collectExcept (ss.flatMap parseStream) with
          | error e =>
            rw [hrs] at hrest
            have hrestC : collectOption
                (rest.map (perInputResults toStr parseStream prog)) = none := by
              cases hC : collectOption
                  (rest.map (perInputResults toStr parseStream prog)) with
              | none => rfl
              | some ls => rw [hC] at hrest; simp at hrest
            simp [Except.map, hper, collectOption, hrestC]
          | ok vs =>
            rw [hrs] at hrest
            cases hC : collectOption
                (rest.map (perInputResults toStr parseStream prog)) with
            | none => rw [hC] at hrest; simp at hrest
            | some ls =>
              rw [hC] at hrest
              simp only [Option.map_some', Option.some_inj] at hrest
              simp [Except.map, hper, collectOption, hC, hrest]

theorem run_jq_query_eq_none_of_error (toStr : Value → String)
    (parseStream : String → List (Except String Value))
    (content : List Value) (prog : String → Except String String)
    (j : Value) (e : String) (hj : j ∈ content)
    (he : prog (toStr j) = Except.error e) :
    run_jq_query toStr parseStream content prog = none := by
  have h0 : ((fun j => (prog (toStr j)).toOption) j) = none := by
    simp [he, except_toOption_error]
  have hc := collectOption_map_eq_none_of_mem
    (fun j => (prog (toStr j)).toOption) content j hj h0
  rw [run_jq_query, hc]

/-! ## Claim theorems -/

/-- C1: for every generic JSON value `v`, converting `v` to the native form,
executing the compiled identity filter program `.` on it, and converting
every result back to the generic form yields exactly the one-element
sequence containing `v`. -/
theorem claim_c1_identity_roundtrip (v : Value) :
    (JQ.executeIdentity (JV.from_serde v)).map JV.to_serde = [some v] := by
  rw [JQ.executeIdentity, identityEngineOutput,
    JQResults.drain_cons_of_ne _ _ (JV.from_serde_get_kind_ne_invalid v),
    JQResults.drain_cons_of_invalid JV.invalid [] rfl, List.map_cons,
    List.map_nil, JV.to_from_serde v]

/-- C2 counterexample: the claim says a failing query execution yields an
error frame or flash and never panics the session, but `run_jq_query`
(src/src/jq.rs line 11) runs `expect("jq execution error")` on each result,
so a program whose execution fails on an input (as the jq `error` builtin
does on every input) panics: the result is the panic marker `none`, not an
error value. -/
theorem claim_c2_counterexample :
    run_jq_query sampleToStr sampleParse [Value.null] sampleFailingProg =
      none := rfl

/-- C2 (amended): a compile failure is reported without panicking — for
program text free of null bytes, `JQ::compile` returns `None` (`some none`)
when the native compiler rejects it — but an execution failure on any input
makes `run_jq_query` panic (modelled `none`) instead of producing an error
frame or flash. -/
theorem claim_c2_amended (toStr : Value → String)
    (parseStream : String → List (Except String Value))
    (content : List Value) (prog : String → Except String String)
    (j : Value) (e : String) (acc : String → Bool) (s : String)
    (hj : j ∈ content) (he : prog (toStr j) = Except.error e)
    (hnul : hasNulByte s = false) (hacc : acc s = false) :
    run_jq_query toStr parseStream content prog = none ∧
      JQ.compile acc s = some none := by
  constructor
  · exact run_jq_query_eq_none_of_error toStr parseStream content prog j e hj he
  · simp [JQ.compile, hnul, hacc]

theorem claim_c2_amended_witness :
    run_jq_query sampleToStr sampleParse [Value.null] sampleFailingProg =
        none ∧
      JQ.compile (fun _ => false) dotProgram = some none :=
  claim_c2_amended sampleToStr sampleParse [Value.null] sampleFailingProg
    Value.null sampleJqError (fun _ => false) dotProgram
    (List.mem_singleton.mpr rfl) rfl (by decide) rfl

/-- C3 counterexample: on program text consisting of a single null byte, the
claim says `compile` returns a compile failure (no compiled program,
`some none` in the model), but `CString::new(s).expect("Nul byte in jq
program")` (src/src/jq.rs line 38) panics first, for any native acceptance
behaviour: the result is the panic marker `none`. -/
theorem claim_c3_counterexample :
    JQ.compile (fun _ => true) nulString = none ∧
      JQ.compile (fun _ => true) nulString ≠ some none := by
  constructor
  · decide
  · decide

/-- C3 (amended): for program text without an embedded null byte, `compile`
returns a compiled program when the native compiler accepts the text and a
compile failure (`None`) when it rejects it; program text containing an
embedded null byte makes `compile` panic rather than return a compile
failure. -/
theorem claim_c3_amended (acc : String → Bool) (s : String) :
    (hasNulByte s = false →
      JQ.compile acc s = if acc s then some (some ⟨s⟩) else some none) ∧
    (hasNulByte s = true → JQ.compile acc s = none) := by
  constructor <;> intro h <;> simp [JQ.compile, h]

theorem claim_c3_amended_witness :
    JQ.compile (fun _ => true) dotProgram = some (some ⟨dotProgram⟩) := by
  have h := (claim_c3_amended (fun _ => true) dotProgram).1 (by decide)
  simpa using h

/-- C5: the result sequence stops exactly at the first value whose kind is
the invalid sentinel (everything before it is enumerated, everything after
it is not), and the number of enumerated results is not bounded by any fixed
count: an engine stream of `n + 1` non-invalid values yields `n + 1`
results. -/
theorem claim_c5_results_stop_at_first_invalid (pre : List JV) (inv : JV)
    (post : List JV) (n : Nat)
    (hpre : ∀ j ∈ pre, j.get_kind ≠ JVKind.invalid)
    (hinv : inv.get_kind = JVKind.invalid) :
    JQResults.drain (pre ++ inv :: post) = pre ∧
      (JQResults.drain (List.replicate (n + 1) JV.jnull)).length = n + 1 := by
  constructor
  · induction pre with
    | nil => simpa using JQResults.drain_cons_of_invalid inv post hinv
    | cons j rest ih =>
      rw [List.cons_append,
        JQResults.drain_cons_of_ne j _ (hpre j (List.mem_cons_self j rest)),
        ih (fun x hx => hpre x (List.mem_cons_of_mem _ hx))]
  · rw [JQResults.drain_replicate_jnull, List.length_replicate]

theorem claim_c5_witness :
    JQResults.drain ([JV.jnull] ++ JV.invalid :: [JV.jtrue]) = [JV.jnull] :=
  (claim_c5_results_stop_at_first_invalid [JV.jnull] JV.invalid [JV.jtrue] 0
    (by decide) rfl).1

/-- C6: deriving two frames from the same parent leaves the parent frame
unchanged in the store, gives each derivation a fresh value set computed by
`run_jq_query` from the parent frame's original values, and the second
derivation does not touch the frame produced by the first. -/
theorem claim_c6_derivation_isolation (toStr : Value → String)
    (parseStream : String → List (Except String Value))
    (frames : List SessionFrame) (parent : Nat)
    (p1 p2 : String → Except String String) (n1 n2 : String)
    (fr : SessionFrame) (r1 r2 : List Value)
    (h : frames[parent]? = some fr)
    (h1 : run_jq_query toStr parseStream fr.values p1 = some r1)
    (h2 : run_jq_query toStr parseStream fr.values p2 = some r2) :
    (deriveFrame toStr parseStream
        (deriveFrame toStr parseStream frames parent p1 n1) parent p2
        n2)[parent]? = some fr ∧
    (deriveFrame toStr parseStream
        (deriveFrame toStr parseStream frames parent p1 n1) parent p2
        n2)[frames.length]? = some ⟨n1, r1⟩ ∧
    (deriveFrame toStr parseStream
        (deriveFrame toStr parseStream frames parent p1 n1) parent p2
        n2)[frames.length + 1]? = some ⟨n2, r2⟩ := by
  have hlt : parent < frames.length := (List.getElem?_eq_some_iff.mp h).1
  have hs1 : deriveFrame toStr parseStream frames parent p1 n1 =
      frames ++ [⟨n1, r1⟩] := by
    simp [deriveFrame, h, h1]
  have hs1p : (frames ++ [(⟨n1, r1⟩ : SessionFrame)])[parent]? = some fr := by
    rw [List.getElem?_append, if_pos hlt, h]
  have hs2 : deriveFrame toStr parseStream (frames ++ [⟨n1, r1⟩]) parent p2
      n2 = (frames ++ [⟨n1, r1⟩]) ++ [⟨n2, r2⟩] := by
    simp [deriveFrame, hs1p, h2]
  rw [hs1, hs2]
  refine ⟨?_, ?_, ?_⟩
  · rw [List.getElem?_append, if_pos (by simp; omega), hs1p]
  · rw [List.getElem?_append, if_pos (by simp), List.getElem?_concat_length]
  · rw [show frames.length + 1 = (frames ++ [(⟨n1, r1⟩ : SessionFrame)]).length
      by simp, List.getElem?_concat_length]

theorem claim_c6_witness :
    (deriveFrame sampleToStr sampleParse
        (deriveFrame sampleToStr sampleParse [⟨dotProgram, [Value.null]⟩] 0
          sampleEchoProg dotProgram) 0 sampleEchoProg
        sampleFlashText)[0]? = some ⟨dotProgram, [Value.null]⟩ ∧
    (deriveFrame sampleToStr sampleParse
        (deriveFrame sampleToStr sampleParse [⟨dotProgram, [Value.null]⟩] 0
          sampleEchoProg dotProgram) 0 sampleEchoProg
        sampleFlashText)[1]? = some ⟨dotProgram, [Value.null]⟩ ∧
    (deriveFrame sampleToStr sampleParse
        (deriveFrame sampleToStr sampleParse [⟨dotProgram, [Value.null]⟩] 0
          sampleEchoProg dotProgram) 0 sampleEchoProg
        sampleFlashText)[2]? = some ⟨sampleFlashText, [Value.null]⟩ :=
  claim_c6_derivation_isolation sampleToStr sampleParse
    [⟨dotProgram, [Value.null]⟩] 0 sampleEchoProg sampleEchoProg dotProgram
    sampleFlashText ⟨dotProgram, [Value.null]⟩ [Value.null] [Value.null]
    rfl rfl rfl

/-- C7: while a flash is active, a key event changes only the flash — Esc
dismisses it, Down and Up scroll it, every other key leaves the state
untouched — and the navigation state is never changed, whatever the normal
(flash-free) key handling would do. -/
theorem claim_c7_flash_isolates_navigation {ν : Type}
    (normalStep : AppState ν → KeyCode → AppState ν)
    (app : AppState ν) (fl : FlashState) (k : KeyCode)
    (h : app.flash = some fl) :
    (keyEventStep normalStep app k).nav = app.nav ∧
    (k = KeyCode.esc → (keyEventStep normalStep app k).flash = none) ∧
    (k = KeyCode.down → (keyEventStep normalStep app k).flash =
      some ⟨fl.text, saturatingAdd1 fl.scroll⟩) ∧
    (k = KeyCode.up → (keyEventStep normalStep app k).flash =
      some ⟨fl.text, saturatingSub1 fl.scroll⟩) ∧
    (k ≠ KeyCode.esc → k ≠ KeyCode.down → k ≠ KeyCode.up →
      keyEventStep normalStep app k = app) := by
  cases k <;> simp [keyEventStep, h, flashKeyStep]

theorem claim_c7_witness :
    (keyEventStep (fun (a : AppState Nat) _ => a)
        ⟨some ⟨sampleFlashText, 3⟩, 7⟩ KeyCode.esc).nav = 7 ∧
    (keyEventStep (fun (a : AppState Nat) _ => a)
        ⟨some ⟨sampleFlashText, 3⟩, 7⟩ KeyCode.esc).flash = none := by
  have h := claim_c7_flash_isolates_navigation (fun (a : AppState Nat) _ => a)
    ⟨some ⟨sampleFlashText, 3⟩, 7⟩ ⟨sampleFlashText, 3⟩ KeyCode.esc rfl
  exact ⟨h.1, h.2.1 rfl⟩

/-- C8: `run_jq_query` is a homomorphism over input concatenation — its
output on `xs ++ ys` is the concatenation of its outputs on `xs` and on `ys`
(with a panic on either side propagating) — and its output is, in input
order, the flattening of the values the program produces for each input. -/
theorem claim_c8_run_jq_query_concat_hom (toStr : Value → String)
    (parseStream : String → List (Except String Value))
    (prog : String → Except String String) (xs ys : List Value) :
    (run_jq_query toStr parseStream (xs ++ ys) prog =
      match run_jq_query toStr parseStream xs prog,
          run_jq_query toStr parseStream ys prog with
      | some a, some b => some (a ++ b)
      | _, _ => none) ∧
    run_jq_query toStr parseStream xs prog =
      (collectOption (xs.map (perInputResults toStr parseStream prog))).map
        (fun ls => ls.flatten) := by
  refine ⟨?_, run_jq_query_eq_flatten toStr parseStream prog xs⟩
  rw [run_jq_query_eq_flatten, run_jq_query_eq_flatten,
    run_jq_query_eq_flatten, List.map_append, collectOption_append]
  cases h1 : collectOption (xs.map (perInputResults toStr parseStream prog)) with
  | none => rfl
  | some a =>
    cases h2 : collectOption
        (ys.map (perInputResults toStr parseStream prog)) with
    | none => rfl
    | some b => simp [List.flatten_append]

/-- C9: scrolling an active flash saturates at both bounds — Up at scroll
position zero and Down at the maximum representable scroll value leave the
scroll counter (and hence the whole flash) unchanged. -/
theorem claim_c9_flash_scroll_saturates {ν : Type}
    (normalStep : AppState ν → KeyCode → AppState ν)
    (app : AppState ν) (fl : FlashState) (h : app.flash = some fl) :
    (fl.scroll = 0 →
      (keyEventStep normalStep app KeyCode.up).flash = some fl) ∧
    (fl.scroll = usizeMax →
      (keyEventStep normalStep app KeyCode.down).flash = some fl) := by
  obtain ⟨t, sc⟩ := fl
  constructor <;> intro hs <;> simp only at hs <;> subst hs <;>
    simp [keyEventStep, h, flashKeyStep, saturatingAdd1, saturatingSub1,
      usizeMax]

theorem claim_c9_witness :
    (keyEventStep (fun (a : AppState Nat) _ => a)
        ⟨some ⟨sampleFlashText, 0⟩, 7⟩ KeyCode.up).flash =
      some ⟨sampleFlashText, 0⟩ :=
  (claim_c9_flash_scroll_saturates (fun (a : AppState Nat) _ => a)
    ⟨some ⟨sampleFlashText, 0⟩, 7⟩ ⟨sampleFlashText, 0⟩ rfl).1 rfl

/-- C10: every mouse event delivered to the interactive loop panics with the
message held by `mousePanicMessage` (the text `Mouse events aren` followed
by an apostrophe and `t enabled!`), rather than being ignored. -/
theorem claim_c10_mouse_event_panics (m : MouseEvent) :
    classifyEvent (Event.mouse m) = Except.error mousePanicMessage := rfl

end Jex
